import Mathlib

/-!
Shallow embedding of `src/v1/torch-engine.py`, a reverse-mode automatic
differentiation engine over scalar values.

The Python module keeps two pieces of process-wide mutable state: the
identity counter `id_counter` and the recording log `Tape_list`.  The
embedding threads both through every operation as an explicit `PyState`
value.  Scalars are modelled generically over a `Field` together with a
`Backend` record supplying the numeric collaborator functions
(`np.sin`, `np.cos`, `np.log`); the instantiation `RB` at `ℝ` uses
`Real.sin`, `Real.cos`, `Real.log` (the idealization of the IEEE-754
double routines on their mathematical domains).

Each record's backward behaviour in the source is a Python closure; here
it is a tagged variant `BackRule` carrying exactly the forward values the
closure captures, interpreted by `runBack`.  `runBack` performs the same
`Variable` arithmetic the closures perform — in particular the
multiplications and additions it executes are themselves recorded
operator applications, so interpreting a backward rule appends fresh
records to the log exactly as the source does.

Failure is modelled with `Except PyErr`: `keyError` for a failing
`dict` lookup (`dl_d[output]`), `valueError` for a failing tuple
unpacking (`dl_dx, = dl_doutputs`), `attributeError` for reading
`.value` / `.name` off a raw number.
-/

namespace TorchEngine

/-- Python exception kinds the engine can surface. -/
inductive PyErr where
  | keyError
  | valueError
  | attributeError
deriving DecidableEq

/-- The numeric collaborator (`np.sin`, `np.cos`, `np.log`). -/
structure Backend (α : Type) where
  sin : α → α
  cos : α → α
  log : α → α

/-- The real-number backend: the idealization of numpy's double-precision
routines on their mathematical domains. -/
noncomputable def RB : Backend ℝ :=
  ⟨Real.sin, Real.cos, Real.log⟩

section PyDefs

variable {α : Type} [Field α]

/-- `Variable`: an immutable scalar wrapper with a name (its identity). -/
structure Variable (α : Type) where
  value : α
  name : String

/-- The backward behaviour recorded in a tape entry.  In the source this is
a closure (`add_backward`, `mul_backward`, ...); each variant carries
exactly the forward-pass `Variable`s the corresponding closure captures
and uses (`add_backward`/`sub_backward` capture nothing they use,
`mul_backward` captures both operands, `sin_backward`/`log_backward`
capture the single operand). -/
inductive BackRule (α : Type) where
  | add
  | sub
  | mul (self other : Variable α)
  | sin (self : Variable α)
  | log (self : Variable α)

/-- One record of the recording log: `Tape(inputs, outputs, propagate)`. -/
structure Tape (α : Type) where
  inputs : List String
  outputs : List String
  propagate : BackRule α

/-- The module-level mutable state: `id_counter` and `Tape_list`. -/
structure PyState (α : Type) where
  id_counter : Nat
  Tape_list : List (Tape α)

/-- The initial module state: counter `0`, empty log. -/
def S0 : PyState ℝ := ⟨0, []⟩

/-- `id_generator()`: increment the counter and return `"v_{id_counter}"`. -/
def id_generator (s : PyState α) : String × PyState α :=
  ("v_" ++ toString (s.id_counter + 1), ⟨s.id_counter + 1, s.Tape_list⟩)

/-- `Variable.__init__(self, value, name=None)`: `self.name = name or
id_generator()` — a missing or falsy (empty) name draws a generated one. -/
def Variable.init (value : α) (name : Option String) (s : PyState α) :
    Variable α × PyState α :=
  match name with
  | some n =>
    if n = "" then
      let p := id_generator s
      (⟨value, p.1⟩, p.2)
    else (⟨value, n⟩, s)
  | none =>
    let p := id_generator s
    (⟨value, p.1⟩, p.2)

/-- `Variable.verbose_init(value, name=None)`. -/
def Variable.verbose_init (value : α) (name : Option String) (s : PyState α) :
    Variable α × PyState α :=
  Variable.init value name s

/-- `reset_tape()`: reset the counter to `0` and clear the log. -/
def reset_tape (_s : PyState α) : PyState α := ⟨0, []⟩

/-- `add_op(self, other)`: forward value `self.value + other.value`, fresh
result node, append a record whose backward rule is `add_backward`. -/
def add_op (self other : Variable α) (s : PyState α) : Variable α × PyState α :=
  let p := Variable.verbose_init (self.value + other.value) none s
  (p.1, ⟨p.2.id_counter,
    p.2.Tape_list ++ [⟨[self.name, other.name], [p.1.name], BackRule.add⟩]⟩)

/-- `mul_op(self, other)`: forward value `self.value * other.value`; the
recorded backward rule captures both operands. -/
def mul_op (self other : Variable α) (s : PyState α) : Variable α × PyState α :=
  let p := Variable.verbose_init (self.value * other.value) none s
  (p.1, ⟨p.2.id_counter,
    p.2.Tape_list ++ [⟨[self.name, other.name], [p.1.name], BackRule.mul self other⟩]⟩)

/-- `sub_op(self, other)`: forward value `self.value - other.value`. -/
def sub_op (self other : Variable α) (s : PyState α) : Variable α × PyState α :=
  let p := Variable.verbose_init (self.value - other.value) none s
  (p.1, ⟨p.2.id_counter,
    p.2.Tape_list ++ [⟨[self.name, other.name], [p.1.name], BackRule.sub⟩]⟩)

/-- `sin_op(self)`: forward value `np.sin(self.value)`; the recorded
backward rule captures the operand. -/
def sin_op (B : Backend α) (self : Variable α) (s : PyState α) :
    Variable α × PyState α :=
  let p := Variable.verbose_init (B.sin self.value) none s
  (p.1, ⟨p.2.id_counter,
    p.2.Tape_list ++ [⟨[self.name], [p.1.name], BackRule.sin self⟩]⟩)

/-- `log_op(self)`: forward value `np.log(self.value)` — the source performs
no domain check before calling `np.log`; the recorded backward rule
captures the operand. -/
def log_op (B : Backend α) (self : Variable α) (s : PyState α) :
    Variable α × PyState α :=
  let p := Variable.verbose_init (B.log self.value) none s
  (p.1, ⟨p.2.id_counter,
    p.2.Tape_list ++ [⟨[self.name], [p.1.name], BackRule.log self⟩]⟩)

/-- The gradient dictionary `dl_d`: insertion-ordered association list from
node identity to gradient `Variable`, as a Python `dict`. -/
abbrev GradMap (α : Type) := List (String × Variable α)

/-- `m[k]` lookup: first (unique) matching key. -/
def dictGet (m : GradMap α) (k : String) : Option (Variable α) :=
  match m with
  | [] => none
  | (k', v) :: m' => if k' = k then some v else dictGet m' k

/-- `m[k] = v`: update an existing entry in place, else append. -/
def dictSet (m : GradMap α) (k : String) (v : Variable α) : GradMap α :=
  match m with
  | [] => [(k, v)]
  | (k', v') :: m' => if k' = k then (k', v) :: m' else (k', v') :: dictSet m' k v

/-- The scalar gradient recorded for `k` (`0` when `k` has no entry). -/
def gval (m : GradMap α) (k : String) : α :=
  match dictGet m k with
  | some v => v.value
  | none => 0

/-- `[dl_d[output] for output in outputs]`: left-to-right lookups, raising
`KeyError` at the first missing key. -/
def lookupAll (m : GradMap α) : List String → Except PyErr (List (Variable α))
  | [] => .ok []
  | k :: ks =>
    match dictGet m k with
    | none => .error .keyError
    | some v => (lookupAll m ks).map (fun vs => v :: vs)

/-- Interpret a record's backward closure on the output gradients.  Mirrors
`add_backward` / `sub_backward` / `mul_backward` / `sin_backward` /
`log_backward`: the unpacking `dl_dx, = dl_doutputs` demands exactly one
output gradient, the local-derivative `Variable`s are created with
generated identities, and every `*` is a recorded `mul_op` application
(so interpreting a rule appends to the log and advances the counter). -/
def runBack (B : Backend α) :
    BackRule α → List (Variable α) → PyState α →
      Except PyErr (List (Variable α) × PyState α)
  | .add, [dl_dx], s =>
    let p1 := Variable.init 1 none s
    let p2 := Variable.init 1 none p1.2
    let q1 := mul_op dl_dx p1.1 p2.2
    let q2 := mul_op dl_dx p2.1 q1.2
    .ok ([q1.1, q2.1], q2.2)
  | .sub, [dl_dx], s =>
    let p1 := Variable.init 1 none s
    let p2 := Variable.init (-1) none p1.2
    let q1 := mul_op dl_dx p1.1 p2.2
    let q2 := mul_op dl_dx p2.1 q1.2
    .ok ([q1.1, q2.1], q2.2)
  | .mul self other, [dl_dx], s =>
    let q1 := mul_op dl_dx other s
    let q2 := mul_op dl_dx self q1.2
    .ok ([q1.1, q2.1], q2.2)
  | .sin self, [dl_dx], s =>
    let p := Variable.init (B.cos self.value) none s
    let q := mul_op dl_dx p.1 p.2
    .ok ([q.1], q.2)
  | .log self, [dl_dx], s =>
    let p := Variable.init (1 / self.value) none s
    let q := mul_op dl_dx p.1 p.2
    .ok ([q.1], q.2)
  | _, _, _ => .error .valueError

/-- The accumulation loop `for input, grad in zip(...)`: an existing entry
is replaced by `dl_d[input] + grad` (a recorded `add_op` application — it
creates a fresh `Variable` and appends a record), a missing one is
inserted. -/
def insertPairs : GradMap α → List (String × Variable α) → PyState α →
    GradMap α × PyState α
  | m, [], s => (m, s)
  | m, (k, g) :: ps, s =>
    match dictGet m k with
    | some old =>
      let p := add_op old g s
      insertPairs (dictSet m k p.1) ps p.2
    | none => insertPairs (dictSet m k g) ps s

/-- The reverse pass `for tabe in reversed(Tape_list)`, applied to the list
of records to visit (already reversed): look up the output gradients,
run the backward rule, accumulate the input contributions.  The list of
records to visit is a parameter fixed at invocation — exactly the
semantics of Python's `reversed` iterator over a list that is appended
to while the loop runs. -/
def gradLoop (B : Backend α) :
    List (Tape α) → GradMap α → PyState α →
      Except PyErr (GradMap α × PyState α)
  | [], m, s => .ok (m, s)
  | t :: ts, m, s =>
    match lookupAll m t.outputs with
    | .error e => .error e
    | .ok gouts =>
      match runBack B t.propagate gouts s with
      | .error e => .error e
      | .ok p =>
        let q := insertPairs m (t.inputs.zip p.1) p.2
        gradLoop B ts q.1 q.2

/-- The body of `grad(l, results)` up to (and including) the reverse pass:
seed `dl_d = \x7b l.name: Variable(1.0) \x7d` (the seed `Variable(1.0)`
itself draws a generated identity) and replay the log in reverse.
Returns the finished dictionary `dl_d` together with the final state.
The `results` parameter is accepted, as in the source, and never used. -/
def grad_dl_d (B : Backend α) (l : Variable α) (_results : List (Variable α))
    (s : PyState α) : Except PyErr (GradMap α × PyState α) :=
  let p := Variable.init 1 none s
  gradLoop B p.2.Tape_list.reverse (dictSet [] l.name p.1) p.2

/-- `grad(l, results)`: runs the reverse pass, prints the entries of `dl_d`,
and `return None` — the dictionary itself is discarded; only the `None`
result (here `Unit`) and the mutated state are observable to the caller. -/
def grad (B : Backend α) (l : Variable α) (results : List (Variable α))
    (s : PyState α) : Except PyErr (Unit × PyState α) :=
  (grad_dl_d B l results s).map (fun p => ((), p.2))

/-- A dynamically-typed operand as Python sees it: a tracked `Variable` or a
raw number.  Reading `.value` or `.name` off a raw number raises
`AttributeError`. -/
inductive Operand (α : Type) where
  | var (v : Variable α)
  | num (x : α)

/-- Attribute access `operand.value`. -/
def Operand.value : Operand α → Except PyErr α
  | .var v => .ok v.value
  | .num _ => .error .attributeError

/-- Attribute access `operand.name`. -/
def Operand.name : Operand α → Except PyErr String
  | .var v => .ok v.name
  | .num _ => .error .attributeError

/-- `add_op(self, other)` under Python's dynamic typing, as reached by
`x + 2.0` (i.e. `Variable.__add__(x, 2.0)` calls `add_op(x, 2.0)`): the
body reads `self.value`, `other.value`, `self.name`, `other.name` in
evaluation order, and the first attribute read on a raw number raises. -/
def add_op_dyn (self other : Operand α) (s : PyState α) :
    Except PyErr (Variable α × PyState α) :=
  match Operand.value self with
  | .error e => .error e
  | .ok sv =>
    match Operand.value other with
    | .error e => .error e
    | .ok ov =>
      let p := Variable.verbose_init (sv + ov) none s
      match Operand.name self with
      | .error e => .error e
      | .ok sn =>
        match Operand.name other with
        | .error e => .error e
        | .ok othn =>
          .ok (p.1, ⟨p.2.id_counter,
            p.2.Tape_list ++ [⟨[sn, othn], [p.1.name], BackRule.add⟩]⟩)

/-- The scalar gradients a backward rule propagates (the `.value` fields of
`runBack`'s results). -/
def backVals (B : Backend α) (r : BackRule α) (outs : List (Variable α))
    (s : PyState α) : Except PyErr (List α) :=
  (runBack B r outs s).map (fun p => p.1.map Variable.value)

/-- Reattach an ambient log prefix to a state produced by a run that started
from an empty log. -/
def withLog (L : List (Tape α)) (s : PyState α) : PyState α :=
  ⟨s.id_counter, L ++ s.Tape_list⟩

end PyDefs

/-! ### Generated identities of the first few nodes of a session -/

theorem vn1 : ("v_" ++ toString (1 : Nat)) = "v_1" := rfl

theorem vn2 : ("v_" ++ toString (2 : Nat)) = "v_2" := rfl

theorem vn3 : ("v_" ++ toString (3 : Nat)) = "v_3" := rfl

theorem vn4 : ("v_" ++ toString (4 : Nat)) = "v_4" := rfl

theorem vn5 : ("v_" ++ toString (5 : Nat)) = "v_5" := rfl

theorem vn6 : ("v_" ++ toString (6 : Nat)) = "v_6" := rfl

theorem vn7 : ("v_" ++ toString (7 : Nat)) = "v_7" := rfl

theorem vn8 : ("v_" ++ toString (8 : Nat)) = "v_8" := rfl

/-! ### Dictionary and accumulation lemmas -/

theorem dictGet_dictSet_self {α : Type} (m : GradMap α) (k : String)
    (v : Variable α) : dictGet (dictSet m k v) k = some v := by
  induction m with
  | nil => simp [dictGet, dictSet]
  | cons h m ih =>
    obtain ⟨k', v'⟩ := h
    by_cases hk : k' = k <;> simp [dictGet, dictSet, hk, ih]

theorem dictGet_dictSet_ne {α : Type} (m : GradMap α) {k k' : String}
    (v : Variable α) (h : k' ≠ k) : dictGet (dictSet m k' v) k = dictGet m k := by
  induction m with
  | nil => simp [dictGet, dictSet, h]
  | cons hd m ih =>
    obtain ⟨k'', v''⟩ := hd
    by_cases hk : k'' = k' <;> simp [dictGet, dictSet, hk, ih]
    · subst hk; simp [h, dictGet]

theorem gval_dictSet_self {α : Type} [Field α] (m : GradMap α) (k : String)
    (v : Variable α) : gval (dictSet m k v) k = v.value := by
  simp [gval, dictGet_dictSet_self]

theorem gval_dictSet_ne {α : Type} [Field α] (m : GradMap α) {k k' : String}
    (v : Variable α) (h : k' ≠ k) : gval (dictSet m k' v) k = gval m k := by
  simp [gval, dictGet_dictSet_ne m v h]

theorem gval_eq_of_get_none {α : Type} [Field α] {m : GradMap α} {k : String}
    (h : dictGet m k = none) : gval m k = 0 := by
  simp [gval, h]

theorem gval_eq_of_get_some {α : Type} [Field α] {m : GradMap α} {k : String}
    {v : Variable α} (h : dictGet m k = some v) : gval m k = v.value := by
  simp [gval, h]

theorem add_op_value {α : Type} [Field α] (a b : Variable α) (s : PyState α) :
    (add_op a b s).1.value = a.value + b.value := by
  simp [add_op, Variable.verbose_init, Variable.init, id_generator]

/-- The value-level accumulation law of the `zip` loop: after the loop, the
scalar gradient recorded at `k` is what it was before plus the sum of the
contributions of the pairs addressed to `k`, in order. -/
theorem insertPairs_gval {α : Type} [Field α] (ps : List (String × Variable α))
    (m : GradMap α) (s : PyState α) (k : String) :
    gval (insertPairs m ps s).1 k
      = gval m k + ((ps.filter fun p => p.1 = k).map fun p => p.2.value).sum := by
  induction ps generalizing m s with
  | nil => simp [insertPairs]
  | cons hd ps ih =>
    obtain ⟨k1, g⟩ := hd
    by_cases hk : k1 = k
    · subst hk
      cases hm : dictGet m k1 with
      | none =>
        simp only [insertPairs, hm]
        rw [ih, gval_dictSet_self, gval_eq_of_get_none hm]
        simp
      | some old =>
        simp only [insertPairs, hm]
        rw [ih, gval_dictSet_self, add_op_value, gval_eq_of_get_some hm]
        simp
        ring
    · cases hm : dictGet m k1 with
      | none =>
        simp only [insertPairs, hm]
        rw [ih, gval_dictSet_ne m g hk]
        simp [hk]
      | some old =>
        simp only [insertPairs, hm]
        rw [ih, gval_dictSet_ne _ _ hk]
        simp [hk]

/-- A missing key among the requested ones makes the lookup comprehension
raise `KeyError`. -/
theorem lookupAll_eq_error {α : Type} [Field α] {m : GradMap α} :
    ∀ {ks : List String} {o : String}, o ∈ ks → dictGet m o = none →
      lookupAll m ks = .error .keyError := by
  intro ks
  induction ks with
  | nil => intro o h; simp at h
  | cons k ks ih =>
    intro o ho hm
    rcases List.mem_cons.mp ho with h | h
    · subst h
      simp [lookupAll, hm]
    · cases hk : dictGet m k with
      | none => simp [lookupAll, hk]
      | some v => simp [lookupAll, hk, ih h hm, Except.map]

/-! ### Frame lemmas: the reverse pass only appends to the log, and its
result is independent of the records already in the ambient log. -/

theorem withLog_withLog {α : Type} (L L' : List (Tape α)) (s : PyState α) :
    withLog L (withLog L' s) = withLog (L ++ L') s := by
  simp [withLog]

theorem init_frame {α : Type} [Field α] (v : α) (n : Option String) (c : Nat)
    (L : List (Tape α)) :
    Variable.init v n ⟨c, L⟩
      = ((Variable.init v n ⟨c, []⟩).1, withLog L (Variable.init v n ⟨c, []⟩).2) := by
  cases n with
  | none => simp [Variable.init, id_generator, withLog]
  | some nm =>
    by_cases h : nm = "" <;> simp [Variable.init, id_generator, withLog, h]

theorem add_op_frame {α : Type} [Field α] (a b : Variable α) (c : Nat)
    (L : List (Tape α)) :
    add_op a b ⟨c, L⟩
      = ((add_op a b ⟨c, []⟩).1, withLog L (add_op a b ⟨c, []⟩).2) := by
  simp [add_op, Variable.verbose_init, Variable.init, id_generator, withLog]

theorem mul_op_frame {α : Type} [Field α] (a b : Variable α) (c : Nat)
    (L : List (Tape α)) :
    mul_op a b ⟨c, L⟩
      = ((mul_op a b ⟨c, []⟩).1, withLog L (mul_op a b ⟨c, []⟩).2) := by
  simp [mul_op, Variable.verbose_init, Variable.init, id_generator, withLog]

theorem runBack_frame {α : Type} [Field α] (B : Backend α) (r : BackRule α)
    (outs : List (Variable α)) (c : Nat) (L : List (Tape α)) :
    runBack B r outs ⟨c, L⟩
      = (runBack B r outs ⟨c, []⟩).map (fun p => (p.1, withLog L p.2)) := by
  rcases r with _ | _ | ⟨a, b⟩ | a | a <;>
    rcases outs with _ | ⟨o1, _ | ⟨o2, outs⟩⟩ <;>
      simp [runBack, mul_op, Variable.verbose_init, Variable.init, id_generator,
        withLog, Except.map]

theorem insertPairs_frame {α : Type} [Field α] (ps : List (String × Variable α))
    (m : GradMap α) (c : Nat) (L : List (Tape α)) :
    insertPairs m ps ⟨c, L⟩
      = ((insertPairs m ps ⟨c, []⟩).1, withLog L (insertPairs m ps ⟨c, []⟩).2) := by
  induction ps generalizing m c L with
  | nil => simp [insertPairs, withLog]
  | cons hd ps ih =>
    obtain ⟨k, g⟩ := hd
    cases hm : dictGet m k with
    | none => simp only [insertPairs, hm]; exact ih _ _ _
    | some old =>
      simp only [insertPairs, hm]
      rw [add_op_frame]
      rcases hB : add_op old g ⟨c, []⟩ with ⟨a1, cb, db⟩
      simp only [withLog]
      rw [ih _ cb (L ++ db), ih _ cb db]
      simp [withLog]

/-- The reverse pass, run over a fixed list of records, behaves identically
whatever records the ambient log already holds: it produces the same
gradient dictionary, the same final counter, and the same freshly
appended records, which end up appended after the ambient ones.  In
particular the records that the pass itself appends are never consulted
by the pass. -/
theorem gradLoop_frame {α : Type} [Field α] (B : Backend α) (ts : List (Tape α))
    (m : GradMap α) (c : Nat) (L : List (Tape α)) :
    gradLoop B ts m ⟨c, L⟩
      = (gradLoop B ts m ⟨c, []⟩).map (fun p => (p.1, withLog L p.2)) := by
  induction ts generalizing m c L with
  | nil => simp [gradLoop, withLog, Except.map]
  | cons t ts ih =>
    simp only [gradLoop]
    cases hlk : lookupAll m t.outputs with
    | error e => simp [Except.map]
    | ok gouts =>
      dsimp only
      rw [runBack_frame]
      cases hrb : runBack B t.propagate gouts ⟨c, []⟩ with
      | error e => simp [Except.map]
      | ok p =>
        rcases p with ⟨gins, cb, db⟩
        simp only [Except.map, withLog]
        rw [insertPairs_frame _ _ cb (L ++ db), insertPairs_frame _ _ cb db]
        rcases hip : insertPairs m (t.inputs.zip gins) ⟨cb, []⟩ with ⟨m2, cq, dq⟩
        simp only [withLog]
        rw [ih _ cq (L ++ db ++ dq), ih _ cq (db ++ dq)]
        cases gradLoop B ts m2 ⟨cq, []⟩ with
        | error e => simp [Except.map]
        | ok q => simp [Except.map, withLog]

/-! ### Concrete scenarios (built through the recorded operators) -/

/-- Scenario 2 of the spec: a single node `x = 3.0` (given the explicit name
`"x"`), and `z = x + x`. -/
noncomputable def Scen2x : Variable ℝ := ⟨3, "x"⟩

noncomputable def Scen2p : Variable ℝ × PyState ℝ := add_op Scen2x Scen2x S0

noncomputable def Scen2z : Variable ℝ := Scen2p.1

noncomputable def Scen2s : PyState ℝ := Scen2p.2

/-- A second session: `x = 4.0` (named `"x"`), `w = x * x`, so `dw/dx = 8`. -/
noncomputable def ScenBx : Variable ℝ := ⟨4, "x"⟩

noncomputable def ScenBp : Variable ℝ × PyState ℝ := mul_op ScenBx ScenBx S0

noncomputable def ScenBw : Variable ℝ := ScenBp.1

noncomputable def ScenBs : PyState ℝ := ScenBp.2

/-- Scenario 4 of the spec (dead branch): from `x = 3.0` build the consumed
product `y = x * c2` and the never-consumed product `w = x * c3`, then ask
for the gradients of `y`. -/
noncomputable def Scen4x : Variable ℝ := ⟨3, "x"⟩

noncomputable def Scen4c2 : Variable ℝ := ⟨2, "c"⟩

noncomputable def Scen4c3 : Variable ℝ := ⟨3, "d"⟩

noncomputable def Scen4py : Variable ℝ × PyState ℝ := mul_op Scen4x Scen4c2 S0

noncomputable def Scen4y : Variable ℝ := Scen4py.1

noncomputable def Scen4pw : Variable ℝ × PyState ℝ := mul_op Scen4x Scen4c3 Scen4py.2

noncomputable def Scen4s : PyState ℝ := Scen4pw.2

/-! ### C1 -/

/-- C1, counterexample.  The claim says `grad(terminal)` returns a gradient
map the caller can look node gradients up in.  It does not: `grad` returns
`None`.  Two runs whose gradient dictionaries differ (`dz/dx = 2` for
`z = x + x` versus `dw/dx = 8` for `w = x * x`) hand the caller exactly the
same return value. -/
theorem C1_grad_returns_no_map :
    (grad RB Scen2z [] Scen2s).map Prod.fst = (grad RB ScenBw [] ScenBs).map Prod.fst ∧
    (grad_dl_d RB Scen2z [] Scen2s).map (fun p => gval p.1 "x") = .ok 2 ∧
    (grad_dl_d RB ScenBw [] ScenBs).map (fun p => gval p.1 "x") = .ok 8 := by
  refine ⟨?_, ?_, ?_⟩
  · simp [grad, grad_dl_d, gradLoop, runBack, insertPairs, lookupAll, dictGet,
      dictSet, Variable.init, Variable.verbose_init, id_generator, add_op, mul_op,
      Scen2z, Scen2s, Scen2p, Scen2x, ScenBw, ScenBs, ScenBp, ScenBx, S0,
      vn1, vn2, vn3, vn4, vn5, vn6, vn7, Except.map]
  · simp [grad_dl_d, gradLoop, runBack, insertPairs, lookupAll, dictGet, dictSet,
      gval, Variable.init, Variable.verbose_init, id_generator, add_op, mul_op,
      Scen2z, Scen2s, Scen2p, Scen2x, S0, vn1, vn2, vn3, vn4, vn5, vn6, vn7,
      Except.map]
    norm_num
  · simp [grad_dl_d, gradLoop, runBack, insertPairs, lookupAll, dictGet, dictSet,
      gval, Variable.init, Variable.verbose_init, id_generator, add_op, mul_op,
      ScenBw, ScenBs, ScenBp, ScenBx, S0, vn1, vn2, vn3, vn4, vn5, vn6, vn7,
      Except.map]
    norm_num

/-- C1, amended: `grad` builds the gradient dictionary internally — on an
empty log it is exactly the seed entry `l.name ↦ 1.0` (the seed `Variable`
draws the next generated identity) — but discards it and returns `None`
(`Unit` here); the dictionary is not part of the return value. -/
theorem C1_grad_discards_map :
    (∀ (B : Backend ℝ) (l : Variable ℝ) (res : List (Variable ℝ)) (s : PyState ℝ),
      grad B l res s = (grad_dl_d B l res s).map (fun p => ((), p.2))) ∧
    (∀ (B : Backend ℝ) (l : Variable ℝ) (res : List (Variable ℝ)) (c : Nat),
      grad_dl_d B l res ⟨c, []⟩
        = .ok ([(l.name, ⟨1, "v_" ++ toString (c + 1)⟩)], ⟨c + 1, []⟩)) := by
  refine ⟨fun B l res s => rfl, fun B l res c => ?_⟩
  simp [grad_dl_d, gradLoop, Variable.init, id_generator, dictSet]

/-! ### C2 -/

/-- C2, counterexample.  Scenario 4 of the spec: the record of the
never-consumed product `w = x * c3` has no entry for its output in the
gradient dictionary, and the `dl_d[output]` lookup raises `KeyError` —
the `grad` call fails instead of treating the dead branch as zero. -/
theorem C2_dead_branch_fails :
    grad RB Scen4y [] Scen4s = .error .keyError := by
  simp [grad, grad_dl_d, gradLoop, runBack, insertPairs, lookupAll, dictGet,
    dictSet, Variable.init, Variable.verbose_init, id_generator, mul_op,
    Scen4y, Scen4py, Scen4x, Scen4c2, Scen4c3, Scen4s, Scen4pw, S0,
    vn1, vn2, vn3, vn4, vn5, Except.map]

/-- C2, amended: a record one of whose output ids has no entry in the
gradient dictionary makes the reverse pass raise `KeyError` when it is
visited; the dead branch aborts the traversal rather than contributing a
zero gradient. -/
theorem C2_missing_output_keyerror (B : Backend ℝ) (t : Tape ℝ)
    (ts : List (Tape ℝ)) (m : GradMap ℝ) (s : PyState ℝ) (o : String)
    (ho : o ∈ t.outputs) (hm : dictGet m o = none) :
    gradLoop B (t :: ts) m s = .error .keyError := by
  simp [gradLoop, lookupAll_eq_error ho hm]

/-- C2 witness: a concrete record whose output `"w"` is absent from the
dictionary satisfies the hypotheses, and the pass fails on it. -/
theorem C2_missing_output_keyerror_witness :
    ("w" ∈ (⟨["x"], ["w"], BackRule.add⟩ : Tape ℝ).outputs ∧
        dictGet ([("y", ⟨1, "g"⟩)] : GradMap ℝ) "w" = none) ∧
      gradLoop RB [⟨["x"], ["w"], BackRule.add⟩] [("y", ⟨1, "g"⟩)] S0
        = .error .keyError :=
  ⟨⟨by simp, by simp [dictGet]⟩,
    C2_missing_output_keyerror RB _ _ _ _ "w" (by simp) (by simp [dictGet])⟩

/-! ### C3 -/

/-- C3: gradient accumulation at shared nodes.  First, the general law of
the accumulation loop: processing one record's `(input_id, contribution)`
pairs adds to each node's recorded scalar gradient the sum of the
contributions addressed to it (inserting where absent), so a node consumed
by several records ends up with the sum of the contributions propagated
along each consuming path.  Second, Scenario 2: for `z = x + x` with
`x = 3.0`, the finished dictionary holds `dz/dx = 2.0`. -/
theorem C3_accumulation :
    (∀ (m : GradMap ℝ) (ps : List (String × Variable ℝ)) (s : PyState ℝ)
        (k : String),
      gval (insertPairs m ps s).1 k
        = gval m k + ((ps.filter fun p => p.1 = k).map fun p => p.2.value).sum) ∧
    (grad_dl_d RB Scen2z [] Scen2s).map (fun p => gval p.1 "x") = .ok 2 := by
  refine ⟨fun m ps s k => insertPairs_gval ps m s k, ?_⟩
  simp [grad_dl_d, gradLoop, runBack, insertPairs, lookupAll, dictGet, dictSet,
    gval, Variable.init, Variable.verbose_init, id_generator, add_op, mul_op,
    Scen2z, Scen2s, Scen2p, Scen2x, S0, vn1, vn2, vn3, vn4, vn5, vn6, vn7,
    Except.map]
  norm_num

/-! ### C4 -/

/-- C4: per-operator forward/backward contracts.  For every operand values,
each operator's result node carries the closed-form forward value, the
appended record carries that operator's backward rule over the captured
operands, and running the backward rule on an incoming gradient `dl`
propagates exactly the contracted gradients: `add ↦ (dl, dl)`,
`sub ↦ (dl, -dl)`, `mul ↦ (dl*b, dl*a)`, `sin ↦ dl*cos a`,
`log ↦ dl*(1/a)`. -/
theorem C4_operator_contracts :
    ∀ (a b dl : Variable ℝ) (s : PyState ℝ),
      ((add_op a b s).1.value = a.value + b.value
        ∧ (add_op a b s).2.Tape_list
            = s.Tape_list ++ [⟨[a.name, b.name], [(add_op a b s).1.name], BackRule.add⟩]
        ∧ backVals RB .add [dl] s = .ok [dl.value, dl.value])
      ∧ ((sub_op a b s).1.value = a.value - b.value
        ∧ (sub_op a b s).2.Tape_list
            = s.Tape_list ++ [⟨[a.name, b.name], [(sub_op a b s).1.name], BackRule.sub⟩]
        ∧ backVals RB .sub [dl] s = .ok [dl.value, -dl.value])
      ∧ ((mul_op a b s).1.value = a.value * b.value
        ∧ (mul_op a b s).2.Tape_list
            = s.Tape_list ++ [⟨[a.name, b.name], [(mul_op a b s).1.name], BackRule.mul a b⟩]
        ∧ backVals RB (.mul a b) [dl] s = .ok [dl.value * b.value, dl.value * a.value])
      ∧ ((sin_op RB a s).1.value = Real.sin a.value
        ∧ (sin_op RB a s).2.Tape_list
            = s.Tape_list ++ [⟨[a.name], [(sin_op RB a s).1.name], BackRule.sin a⟩]
        ∧ backVals RB (.sin a) [dl] s = .ok [dl.value * Real.cos a.value])
      ∧ ((log_op RB a s).1.value = Real.log a.value
        ∧ (log_op RB a s).2.Tape_list
            = s.Tape_list ++ [⟨[a.name], [(log_op RB a s).1.name], BackRule.log a⟩]
        ∧ backVals RB (.log a) [dl] s = .ok [dl.value * (1 / a.value)]) := by
  intro a b dl s
  refine ⟨⟨?_, ?_, ?_⟩, ⟨?_, ?_, ?_⟩, ⟨?_, ?_, ?_⟩, ⟨?_, ?_, ?_⟩, ⟨?_, ?_, ?_⟩⟩ <;>
    simp [add_op, sub_op, mul_op, sin_op, log_op, backVals, runBack, RB,
      Variable.verbose_init, Variable.init, id_generator, Except.map]

/-! ### C5 -/

/-- C5, counterexample.  The claim says `grad` never mutates the log.  On
Scenario 2 the log holds one record before the call and four after it: the
backward rule's two multiplications and the accumulation's addition are
themselves recorded operator applications. -/
theorem C5_grad_mutates_log :
    Scen2s.Tape_list.length = 1 ∧
    (grad RB Scen2z [] Scen2s).map (fun p => p.2.Tape_list.length) = .ok 4 := by
  constructor
  · simp [Scen2s, Scen2p, Scen2x, add_op, Variable.verbose_init, Variable.init,
      id_generator, S0]
  · simp [grad, grad_dl_d, gradLoop, runBack, insertPairs, lookupAll, dictGet,
      dictSet, Variable.init, Variable.verbose_init, id_generator, add_op, mul_op,
      Scen2z, Scen2s, Scen2p, Scen2x, S0, vn1, vn2, vn3, vn4, vn5, vn6, vn7,
      Except.map]

/-- C5, amended: a `grad` call may append records to the log (every backward
multiplication and every accumulation addition is recorded), but it never
removes or reorders the existing ones: the pre-call log is an initial
segment of the post-call log.  Each call still seeds its own fresh
dictionary (`grad_dl_d` starts from `\x7b l.name: Variable(1.0) \x7d`). -/
theorem C5_grad_only_appends (B : Backend ℝ) (l : Variable ℝ)
    (res : List (Variable ℝ)) (s : PyState ℝ) (g : GradMap ℝ) (s' : PyState ℝ)
    (h : grad_dl_d B l res s = .ok (g, s')) :
    ∃ δ, s'.Tape_list = s.Tape_list ++ δ := by
  obtain ⟨c, L⟩ := s
  simp only [grad_dl_d, Variable.init, id_generator] at h
  rw [gradLoop_frame] at h
  cases hb : gradLoop B (List.reverse L)
      (dictSet [] l.name ⟨1, "v_" ++ toString (c + 1)⟩) ⟨c + 1, []⟩ with
  | error e => rw [hb] at h; simp [Except.map] at h
  | ok q =>
    rw [hb] at h
    simp only [Except.map, Except.ok.injEq, Prod.mk.injEq] at h
    exact ⟨q.2.Tape_list, by rw [← h.2]; simp [withLog]⟩

/-- C5 witness: on the empty log the hypothesis holds with the seed-only
dictionary, and the conclusion instantiates to the trivial extension. -/
theorem C5_grad_only_appends_witness :
    ∃ δ, (⟨1, []⟩ : PyState ℝ).Tape_list = (⟨0, []⟩ : PyState ℝ).Tape_list ++ δ :=
  C5_grad_only_appends RB ⟨1, "t"⟩ [] ⟨0, []⟩ [("t", ⟨1, "v_1"⟩)] ⟨1, []⟩ (by
    simp [grad_dl_d, gradLoop, Variable.init, id_generator, dictSet, vn1])

/-! ### C6 -/

/-- C6, counterexample.  The claim says `log` of a value `≤ 0` fails
explicitly at the forward call site.  It does not: `log_op` performs no
domain check — applied to `-1.0` (and to `0.0`) it returns a freshly named
result node and appends a record, raising nothing (numpy produces a quiet
`nan` / `-inf`). -/
theorem C6_log_no_domain_error :
    (log_op RB ⟨-1, "a"⟩ S0).1.name = "v_1" ∧
    (log_op RB ⟨-1, "a"⟩ S0).2.Tape_list.length = 1 ∧
    (log_op RB ⟨0, "a"⟩ S0).2.Tape_list.length = 1 := by
  refine ⟨?_, ?_, ?_⟩ <;>
    simp [log_op, Variable.verbose_init, Variable.init, id_generator, S0, vn1]

/-- C6, amended: `log_op` is total — for every input node, including ones
with value `≤ 0`, it returns a result node carrying the backend's log of
the input (numpy's quiet `nan` / `-inf` on the violated domain), appends
the record, and advances the counter; no domain error is raised at the
call site. -/
theorem C6_log_total (a : Variable ℝ) (s : PyState ℝ) :
    (log_op RB a s).1.value = Real.log a.value ∧
    (log_op RB a s).2.Tape_list
      = s.Tape_list ++ [⟨[a.name], [(log_op RB a s).1.name], BackRule.log a⟩] ∧
    (log_op RB a s).2.id_counter = s.id_counter + 1 := by
  refine ⟨?_, ?_, ?_⟩ <;>
    simp [log_op, RB, Variable.verbose_init, Variable.init, id_generator]

/-! ### C7 -/

/-- C7, counterexample.  The claim says identities never collide across a
reset.  They do: the node created before the reset and the first node
created after it both draw the identity `"v_1"`, because `reset_tape`
restarts the counter at `0`. -/
theorem C7_identity_collision :
    (Variable.verbose_init (1 : ℝ) none S0).1.name
      = (Variable.verbose_init (2 : ℝ) none
          (reset_tape (Variable.verbose_init (1 : ℝ) none S0).2)).1.name := by
  simp [Variable.verbose_init, Variable.init, id_generator, reset_tape, S0]

/-- C7, amended: `reset_tape` puts the session back into the one fixed
initial state (empty log, counter `0`), so a `grad` call after the reset is
unaffected by whatever tape existed before it; but the identity counter
also restarts, so the generated identities after the reset replay the
fresh-session sequence and can collide with identities drawn before it. -/
theorem C7_reset_session :
    (∀ s s' : PyState ℝ, reset_tape s = reset_tape s') ∧
    (∀ (B : Backend ℝ) (l : Variable ℝ) (res : List (Variable ℝ))
        (s : PyState ℝ), grad B l res (reset_tape s) = grad B l res S0) ∧
    (∀ (v : ℝ) (s : PyState ℝ),
      (Variable.verbose_init v none (reset_tape s)).1.name
        = (Variable.verbose_init v none S0).1.name) :=
  ⟨fun _ _ => rfl, fun _ _ _ _ => rfl, fun _ _ => rfl⟩

/-! ### C8 -/

/-- C8, counterexample.  The claim says a raw numeric literal operand is
lifted to a constant node and the call succeeds.  It is not: `x + 2.0`
reaches `add_op(x, 2.0)`, whose read of `other.value` raises
`AttributeError`. -/
theorem C8_literal_not_lifted :
    add_op_dyn (Operand.var (⟨3, "x"⟩ : Variable ℝ)) (Operand.num 2) S0
      = .error .attributeError := by
  simp [add_op_dyn, Operand.value]

/-- C8, amended: operators accept only tracked `Variable` operands; there is
no lifting of raw numeric literals.  With two tracked nodes `add_op`
proceeds exactly as the typed operator; with a raw number on either side
the attribute access on the literal fails at the call site. -/
theorem C8_operands_must_be_nodes :
    (∀ (a b : Variable ℝ) (s : PyState ℝ),
      add_op_dyn (Operand.var a) (Operand.var b) s = .ok (add_op a b s)) ∧
    (∀ (a : Variable ℝ) (q : ℝ) (s : PyState ℝ),
      add_op_dyn (Operand.var a) (Operand.num q) s = .error .attributeError) ∧
    (∀ (a : Variable ℝ) (q : ℝ) (s : PyState ℝ),
      add_op_dyn (Operand.num q) (Operand.var a) s = .error .attributeError) := by
  refine ⟨fun a b s => ?_, fun a q s => rfl, fun a q s => rfl⟩
  simp [add_op_dyn, add_op, Operand.value, Operand.name,
    Variable.verbose_init, Variable.init, id_generator]

/-! ### C9 -/

/-- C9: the `results` parameter of `grad` (the list of variables of
interest) is accepted and never used — the outcome and the internal
gradient dictionary are identical for any two values of it. -/
theorem C9_results_unused (B : Backend ℝ) (l : Variable ℝ)
    (r1 r2 : List (Variable ℝ)) (s : PyState ℝ) :
    grad B l r1 s = grad B l r2 s ∧ grad_dl_d B l r1 s = grad_dl_d B l r2 s :=
  ⟨rfl, rfl⟩

/-! ### C10 -/

/-- C10: the reverse pass of `grad` consumes exactly the records present in
the log at the moment of the call, in strict reverse append order — the
traversal list is the reversal of the invocation-time `Tape_list`, fixed
before the loop starts (so the structurally recursive `gradLoop`
terminates after exactly that many steps) — and, by the frame property of
`gradLoop`, records appended to the log while the pass runs are never
visited: the pass behaves identically whatever the ambient log holds,
merely appending its own records after it. -/
theorem C10_reverse_snapshot :
    (∀ (B : Backend ℝ) (l : Variable ℝ) (res : List (Variable ℝ))
        (s : PyState ℝ),
      grad_dl_d B l res s
        = gradLoop B s.Tape_list.reverse
            (dictSet [] l.name (Variable.init (1 : ℝ) none s).1)
            (Variable.init (1 : ℝ) none s).2) ∧
    (∀ (B : Backend ℝ) (ts : List (Tape ℝ)) (m : GradMap ℝ) (c : Nat)
        (L : List (Tape ℝ)),
      gradLoop B ts m ⟨c, L⟩
        = (gradLoop B ts m ⟨c, []⟩).map (fun p => (p.1, withLog L p.2))) := by
  refine ⟨fun B l res s => ?_, fun B ts m c L => gradLoop_frame B ts m c L⟩
  simp [grad_dl_d, Variable.init, id_generator]

end TorchEngine
